import Mathlib

/-!
Verification development for the web-teacher lesson-guide core.

Shallow embedding of:
- `validateSelector` and `validateLessonSteps` (src/unnamed/part_007, step-controller module);
- the `StepController` class (src/unnamed/part_007 lines 133-386): navigation state machine,
  auto-advance timers, event callbacks;
- the `GuideSystem` orchestrator (src/unnamed/part_006 lines 213-487);
- the `TTSController` narration queue (src/unnamed/part_007 lines 399-585).

The live document is abstracted as a function from selector strings to the outcome of
`document.querySelector`; `setTimeout`/`clearTimeout` are modelled by a bag of pending
timer ids plus the one handle the controller stores; event callbacks are modelled by a
log of emitted events (after `destroy` clears `this.events`, emissions go nowhere, which
the `eventsCleared` flag captures).
-/

namespace WebTeacher

/-- Outcome of `document.querySelector(selector)` as observed by the calling code:
a non-null value (an element, or the `undefined` the unit-test mock yields after
`mockReset`), `null`, or a thrown `SyntaxError` for malformed selectors. -/
inductive QueryOutcome
  | returnsNonNull
  | returnsNull
  | throwsError
deriving DecidableEq

/-- From src/types: one lesson step (only the fields the guide core reads). -/
structure LessonStep where
  id : String
  title : String
  content : String
  targetSelector : Option String := none
deriving DecidableEq

/-- From src/types: a lesson plan (only the fields the guide core reads). -/
structure LessonPlan where
  id : String
  title : String
  steps : List LessonStep
deriving DecidableEq

/-- From src/types: guide settings consumed by the step controller. -/
structure GuideSettings where
  autoAdvance : Bool
  autoAdvanceDelay : Nat
  showProgress : Bool
deriving DecidableEq

/-- part_007 lines 60-67: `validateSelector` tries `document.querySelector(selector)`,
returns `element !== null`, and returns `false` when the lookup throws. -/
def validateSelector (q : String → QueryOutcome) (selector : String) : Bool :=
  match q selector with
  | .returnsNonNull => true
  | .returnsNull => false
  | .throwsError => false

/-- part_007 lines 72-96: partition steps into valid/invalid; steps without a
`targetSelector` are always valid, the rest are valid iff `validateSelector` accepts. -/
def validateLessonSteps (q : String → QueryOutcome) :
    List LessonStep → List LessonStep × List (LessonStep × String)
  | [] => ([], [])
  | step :: rest =>
    let (v, i) := validateLessonSteps q rest
    match step.targetSelector with
    | some sel =>
        if validateSelector q sel then (step :: v, i)
        else (v, (step, "选择器 \"" ++ sel ++ "\" 在页面中未找到") :: i)
    | none => (step :: v, i)

/-- part_007 lines 20-25: the `StepControllerState` record. -/
structure StepControllerState where
  currentStepIndex : Nat
  isPlaying : Bool
  isPaused : Bool
  isCompleted : Bool
deriving DecidableEq

/-- The events a `StepController` can deliver through its callback bundle
(part_007 lines 8-15). -/
inductive GuideEvent
  | stepChange (index : Nat)
  | completed
  | started
  | paused
  | resumed
  | errored
deriving DecidableEq

/-- A `StepController` instance (part_007 lines 133-150). `pendingTimers` is the bag of
`setTimeout` timeouts scheduled by this controller that have neither fired nor been
cleared; `autoAdvanceTimer` is the handle field the class stores (it can go stale:
the class overwrites it without clearing, and a fired timeout leaves it set).
`nextTimerId` supplies fresh (nonzero) timeout ids. `eventsCleared` records that
`destroy()` replaced `this.events` with `{}`. `log` records the callback invocations. -/
structure Controller where
  lessonPlan : Option LessonPlan
  state : StepControllerState
  settings : GuideSettings
  autoAdvanceTimer : Option Nat
  pendingTimers : List Nat
  nextTimerId : Nat
  eventsCleared : Bool
  log : List GuideEvent
deriving DecidableEq

namespace StepController

/-- Invoke an optional callback from `this.events`: appends to the log unless
`destroy()` has cleared the bundle. -/
def emit (c : Controller) (e : GuideEvent) : Controller :=
  if c.eventsCleared then c else { c with log := c.log ++ [e] }

/-- part_007 lines 184-189: `getCurrentStep`. -/
def getCurrentStep (c : Controller) : Option LessonStep :=
  match c.lessonPlan with
  | none => none
  | some p => if p.steps.length = 0 then none else p.steps.get? c.state.currentStepIndex

/-- part_007 lines 194-196: `getTotalSteps`. -/
def getTotalSteps (c : Controller) : Nat :=
  match c.lessonPlan with
  | none => 0
  | some p => p.steps.length

/-- part_007 lines 327-333: `emitStepChange` fires `onStepChange` only when
`getCurrentStep()` is non-null. -/
def emitStepChange (c : Controller) : Controller :=
  match getCurrentStep c with
  | some _ => emit c (.stepChange c.state.currentStepIndex)
  | none => c

/-- part_007 lines 359-364: `stopAutoAdvance` clears the stored timeout (ids are
nonzero, so the JS truthiness test is just the null check) and nulls the handle. -/
def stopAutoAdvance (c : Controller) : Controller :=
  match c.autoAdvanceTimer with
  | some t => { c with pendingTimers := c.pendingTimers.erase t, autoAdvanceTimer := none }
  | none => c

/-- part_007 lines 338-346: `startAutoAdvanceIfEnabled` schedules a fresh timeout and
overwrites the handle, without clearing a previously stored one. -/
def startAutoAdvanceIfEnabled (c : Controller) : Controller :=
  if c.settings.autoAdvance && !c.state.isPaused then
    { c with pendingTimers := c.pendingTimers ++ [c.nextTimerId],
             autoAdvanceTimer := some c.nextTimerId,
             nextTimerId := c.nextTimerId + 1 }
  else c

/-- part_007 lines 351-354: cancel then re-arm. -/
def restartAutoAdvanceIfEnabled (c : Controller) : Controller :=
  startAutoAdvanceIfEnabled (stopAutoAdvance c)

/-- part_007 lines 164-172: `reset`. -/
def reset (c : Controller) : Controller :=
  let c := stopAutoAdvance c
  { c with state := { currentStepIndex := 0, isPlaying := false,
                      isPaused := false, isCompleted := false } }

/-- part_007 lines 155-159: `load` stores the plan then resets. -/
def load (c : Controller) (plan : LessonPlan) : Controller :=
  reset { c with lessonPlan := some plan }

/-- part_007 lines 201-217: `start`. With no plan it fires `onError` and returns;
otherwise it forces the playing state, fires `onStart` and `onStepChange`, and arms
the auto-advance timer (without cancelling a pending one first). -/
def start (c : Controller) : Controller :=
  match c.lessonPlan with
  | none => emit c .errored
  | some _ =>
      let c := { c with state := { currentStepIndex := 0, isPlaying := true,
                                   isPaused := false, isCompleted := false } }
      let c := emit c .started
      let c := emitStepChange c
      startAutoAdvanceIfEnabled c

/-- part_007 lines 222-231: `pause`. -/
def pause (c : Controller) : Controller :=
  if !c.state.isPlaying || c.state.isPaused then c
  else
    let c := { c with state := { c.state with isPaused := true } }
    let c := stopAutoAdvance c
    emit c .paused

/-- part_007 lines 236-245: `resume`. -/
def resume (c : Controller) : Controller :=
  if !c.state.isPlaying || !c.state.isPaused then c
  else
    let c := { c with state := { c.state with isPaused := false } }
    let c := emit c .resumed
    startAutoAdvanceIfEnabled c

/-- part_007 lines 250-255: `stop`. -/
def stop (c : Controller) : Controller :=
  let c := stopAutoAdvance c
  { c with state := { c.state with isPlaying := false, isPaused := false } }

/-- part_007 lines 316-322: private `complete`. -/
def complete (c : Controller) : Controller :=
  let c := { c with state := { c.state with isCompleted := true, isPlaying := false } }
  let c := stopAutoAdvance c
  emit c .completed

/-- part_007 lines 260-276: `next`. -/
def next (c : Controller) : Controller × Bool :=
  match c.lessonPlan with
  | none => (c, false)
  | some p =>
    if c.state.isCompleted then (c, false)
    else
      let nextIndex := c.state.currentStepIndex + 1
      if p.steps.length ≤ nextIndex then (complete c, false)
      else
        let c := { c with state := { c.state with currentStepIndex := nextIndex } }
        let c := emitStepChange c
        (restartAutoAdvanceIfEnabled c, true)

/-- part_007 lines 281-291: `previous`. -/
def previous (c : Controller) : Controller × Bool :=
  match c.lessonPlan with
  | none => (c, false)
  | some _ =>
    if c.state.currentStepIndex = 0 then (c, false)
    else
      let c := { c with state := { c.state with
                   currentStepIndex := c.state.currentStepIndex - 1,
                   isCompleted := false } }
      let c := emitStepChange c
      (restartAutoAdvanceIfEnabled c, true)

/-- part_007 lines 296-311: `goToStep` (the JS index can be negative, hence `Int`). -/
def goToStep (c : Controller) (index : Int) : Controller × Bool :=
  match c.lessonPlan with
  | none => (c, false)
  | some p =>
    if index < 0 || (p.steps.length : Int) ≤ index then (c, false)
    else
      let c := { c with state := { c.state with
                   currentStepIndex := index.toNat,
                   isCompleted := false } }
      let c := emitStepChange c
      (restartAutoAdvanceIfEnabled c, true)

/-- part_007 lines 369-376: `updateSettings` merges the partial settings object and
re-processes the timer when `autoAdvance` or `autoAdvanceDelay` is among the keys. -/
def updateSettings (c : Controller) (aa : Option Bool) (delay : Option Nat)
    (sp : Option Bool) : Controller :=
  let s := c.settings
  let s := { s with autoAdvance := aa.getD s.autoAdvance,
                    autoAdvanceDelay := delay.getD s.autoAdvanceDelay,
                    showProgress := sp.getD s.showProgress }
  let c := { c with settings := s }
  if aa.isSome || delay.isSome then restartAutoAdvanceIfEnabled c else c

/-- part_007 lines 381-385: `destroy` cancels the timer, clears the plan and the
event bundle. It does not touch `this.state`. -/
def destroy (c : Controller) : Controller :=
  let c := stopAutoAdvance c
  { c with lessonPlan := none, eventsCleared := true }

/-- A scheduled timeout `t` expiring (the callback of part_007 lines 340-344):
once fired it is no longer pending; the callback re-checks the state flags and
then behaves like `next()`. Firing an id that is not pending is a no-op. -/
def timerFire (c : Controller) (t : Nat) : Controller :=
  if c.pendingTimers.contains t then
    let c := { c with pendingTimers := c.pendingTimers.erase t }
    if !c.state.isPaused && c.state.isPlaying then (next c).1 else c
  else c

/-- Fresh controller as built by the constructor (part_007 lines 145-150). -/
def initController (settings : GuideSettings) : Controller :=
  { lessonPlan := none,
    state := { currentStepIndex := 0, isPlaying := false,
               isPaused := false, isCompleted := false },
    settings := settings,
    autoAdvanceTimer := none,
    pendingTimers := [],
    nextTimerId := 1,
    eventsCleared := false,
    log := [] }

/-- The public operations of one controller instance, plus timer expiry. -/
inductive Op
  | load (plan : LessonPlan)
  | start
  | pause
  | resume
  | stop
  | next
  | previous
  | goToStep (index : Int)
  | updateSettings (aa : Option Bool) (delay : Option Nat) (sp : Option Bool)
  | destroy
  | timerFire (t : Nat)
deriving DecidableEq

/-- Apply one operation (return values of `next`/`previous`/`goToStep` dropped). -/
def applyOp (c : Controller) : Op → Controller
  | .load p => load c p
  | .start => start c
  | .pause => pause c
  | .resume => resume c
  | .stop => stop c
  | .next => (next c).1
  | .previous => (previous c).1
  | .goToStep i => (goToStep c i).1
  | .updateSettings a d s => updateSettings c a d s
  | .destroy => destroy c
  | .timerFire t => timerFire c t

/-- Run a sequence of operations. -/
def run (c : Controller) (ops : List Op) : Controller :=
  ops.foldl applyOp c

end StepController

/-! The TTS narration queue (part_007 lines 399-585). The async drain loop of
`processQueue` is embedded as a small-step machine: the loop shifts texts off the
queue, skipping a falsy (empty) text synchronously per the `if (text)` guard at
line 472 without involving the provider, until it hands a non-empty text to
`provider.speak` and suspends on the `await` (`awaitingSpeak`) or the queue runs
out; the `await` settling — fulfilment or the rejection swallowed by the
`try`/`catch` at lines 473-478 — resumes the loop. `spoken` records the texts
handed to the provider, in order; `enqueuedLog` is a ghost trace of every text
accepted by `enqueue`. -/

structure TTSState where
  enabled : Bool
  queue : List String
  isProcessing : Bool
  awaitingSpeak : Bool
  spoken : List String
  enqueuedLog : List String
deriving DecidableEq

namespace TTSController

/-- The synchronous part of the `while (this.queue.length > 0)` loop (part_007
lines 470-479): shift items, skipping each falsy (empty) text per the `if (text)`
guard at line 472 — it is dequeued but never handed to the provider and nothing
is awaited for it — until a non-empty text is found (it is handed to `speak` and
the loop suspends on the await) or the queue is exhausted. Returns the remaining
queue and the text handed over, if any. -/
def drainLoop : List String → List String × Option String
  | [] => ([], none)
  | t :: rest => if t.isEmpty then drainLoop rest else (rest, some t)

/-- Resume the drain loop up to its next suspension point: either a non-empty
text is handed to the provider and the loop awaits its playback, or the queue is
exhausted and `isProcessing` is cleared (part_007 line 481). -/
def loopIteration (s : TTSState) : TTSState :=
  match drainLoop s.queue with
  | (rest, some t) =>
      { s with queue := rest, spoken := s.spoken ++ [t], awaitingSpeak := true }
  | (rest, none) =>
      { s with queue := rest, isProcessing := false, awaitingSpeak := false }

/-- part_007 lines 463-469: `processQueue` returns at once when already processing
or the queue is empty; otherwise sets `isProcessing` and runs the loop up to its
first suspension. -/
def processQueue (s : TTSState) : TTSState :=
  if s.isProcessing || s.queue.isEmpty then s
  else loopIteration { s with isProcessing := true }

/-- part_007 lines 448-458: `enqueue` is gated on `settings.enabled`, appends the
text, and kicks off `processQueue` when idle. -/
def enqueue (s : TTSState) (text : String) : TTSState :=
  if !s.enabled then s
  else
    let s := { s with queue := s.queue ++ [text], enqueuedLog := s.enqueuedLog ++ [text] }
    if !s.isProcessing then processQueue s else s

/-- The `await this.speak(text)` inside the drain loop settling with success
(`ok = true`) or failure (`ok = false`). The surrounding `try`/`catch` logs and
swallows a failure, so the loop resumes identically in both cases. -/
def speakSettled (s : TTSState) (ok : Bool) : TTSState :=
  if s.awaitingSpeak then loopIteration { s with awaitingSpeak := false } else s

/-- Interleavable narration-queue events: an `enqueue` call, or the in-flight
utterance finishing (successfully or not). -/
inductive TTSOp
  | enqueue (text : String)
  | speakSettled (ok : Bool)
deriving DecidableEq

def ttsApply (s : TTSState) : TTSOp → TTSState
  | .enqueue t => enqueue s t
  | .speakSettled ok => speakSettled s ok

def ttsRun (s : TTSState) (ops : List TTSOp) : TTSState :=
  ops.foldl ttsApply s

/-- A fresh controller with narration enabled (part_007 lines 399-413). -/
def initTTS : TTSState :=
  { enabled := true, queue := [], isProcessing := false, awaitingSpeak := false,
    spoken := [], enqueuedLog := [] }

/-- Flip the recorded outcome of every playback in a trace. -/
def flipOutcome : TTSOp → TTSOp
  | .speakSettled ok => .speakSettled (!ok)
  | op => op

/-- The texts the `if (text)` guard lets through to the provider: the non-empty
ones, in their original order. -/
def nonEmptyTexts (l : List String) : List String :=
  l.filter (fun t => !t.isEmpty)

end TTSController

/-- Recognize an `onComplete` delivery in an event log. -/
def isCompleteEvent : GuideEvent → Bool
  | .completed => true
  | _ => false

/-- Recognize an `onError` delivery in an event log. -/
def isErroredEvent : GuideEvent → Bool
  | .errored => true
  | _ => false

/-- The indices carried by the `onStepChange` deliveries of a log, in order. -/
def stepChangeIndices (l : List GuideEvent) : List Nat :=
  l.filterMap (fun e => match e with | .stepChange i => some i | _ => none)

/-! The `GuideSystem` orchestrator (part_006 lines 213-487). The driver.js engine is
external: its instance is opaque (`Option Unit`), and `hasNextStep()` /
`hasPreviousStep()` are inputs. The constructor wires the inner controller's
callbacks to `handleStepChange` (scroll, then forward), `handleComplete` (tear down
the driver instance, then forward) and pass-through handlers, so every controller
emission also reaches the outer event bundle: `absorb` forwards the freshly emitted
events to `gsLog` and applies the `handleComplete` teardown. -/

structure GuideSystem where
  driverInstance : Option Unit
  ctrl : Controller
  gsLessonPlan : Option LessonPlan
  isInitialized : Bool
  gsLog : List GuideEvent
deriving DecidableEq

namespace GuideSystem

/-- Adopt an updated inner controller: forward its new emissions to the outer
bundle, and run `handleComplete`'s driver teardown (part_006 lines 479-486) when a
completion was among them. Scrolling in `handleStepChange` (lines 467-474) is a DOM
side effect with no modelled state. -/
def absorb (gs : GuideSystem) (c' : Controller) : GuideSystem :=
  let newEvents := c'.log.drop gs.ctrl.log.length
  { gs with
      ctrl := c',
      gsLog := gs.gsLog ++ newEvents,
      driverInstance := if newEvents.any isCompleteEvent then none else gs.driverInstance }

/-- part_006 lines 221-234 wire the events; the fresh orchestrator owns a fresh
controller and no driver instance. -/
def gsNew (settings : GuideSettings) : GuideSystem :=
  { driverInstance := none, ctrl := StepController.initController settings,
    gsLessonPlan := none, isInitialized := false, gsLog := [] }

/-- part_006 lines 239-250: `init` (style injection has no modelled effect). -/
def gsInit (gs : GuideSystem) : GuideSystem :=
  if gs.isInitialized then gs else { gs with isInitialized := true }

/-- part_006 lines 255-283: `loadLessonPlan` validates against the live document
`q`, keeps only the valid steps, loads the filtered plan into the controller and
reports `success = valid.length > 0` together with the partition. -/
def loadLessonPlan (q : String → QueryOutcome) (gs : GuideSystem) (plan : LessonPlan) :
    GuideSystem × (Bool × Nat × List (LessonStep × String)) :=
  let gs := gsInit gs
  let vi := validateLessonSteps q plan.steps
  let validPlan : LessonPlan := { plan with steps := vi.1 }
  let gs := { gs with gsLessonPlan := some validPlan }
  let gs := absorb gs (StepController.load gs.ctrl validPlan)
  (gs, (decide (0 < vi.1.length), vi.1.length, vi.2))

/-- part_006 lines 288-309: `start` refuses (error callback, `false`) when the
stored plan is absent or has zero steps; otherwise it creates and drives the
driver.js instance, then starts the controller, returning `true`. -/
def gsStart (gs : GuideSystem) : GuideSystem × Bool :=
  match gs.gsLessonPlan with
  | none => ({ gs with gsLog := gs.gsLog ++ [.errored] }, false)
  | some p =>
    if p.steps.length = 0 then ({ gs with gsLog := gs.gsLog ++ [.errored] }, false)
    else
      let gs := { gs with driverInstance := some () }
      (absorb gs (StepController.start gs.ctrl), true)

/-- part_006 lines 340-346: `next` consults the driver first; only when an instance
exists and it reports a next step does it move the driver and mirror the call into
the controller. `hasNext` is the value of `driverInstance.hasNextStep()`. -/
def gsNext (gs : GuideSystem) (hasNext : Bool) : GuideSystem × Bool :=
  match gs.driverInstance with
  | some _ =>
      if hasNext then
        let r := StepController.next gs.ctrl
        (absorb gs r.1, r.2)
      else (gs, false)
  | none => (gs, false)

/-- part_006 lines 351-357: `previous`, symmetric to `next`. -/
def gsPrevious (gs : GuideSystem) (hasPrev : Bool) : GuideSystem × Bool :=
  match gs.driverInstance with
  | some _ =>
      if hasPrev then
        let r := StepController.previous gs.ctrl
        (absorb gs r.1, r.2)
      else (gs, false)
  | none => (gs, false)

/-- part_006 lines 328-335: `stop` stops the controller and destroys the driver
instance. -/
def gsStop (gs : GuideSystem) : GuideSystem :=
  let gs := absorb gs (StepController.stop gs.ctrl)
  { gs with driverInstance := none }

end GuideSystem

/-! Concrete fixtures used by witnesses and counterexamples. -/

def st1 : LessonStep := { id := "s1", title := "Step 1", content := "Content 1" }

def st2 : LessonStep := { id := "s2", title := "Step 2", content := "Content 2" }

def st3 : LessonStep := { id := "s3", title := "Step 3", content := "Content 3" }

def plan0 : LessonPlan := { id := "p0", title := "Empty", steps := [] }

def plan1 : LessonPlan := { id := "p1", title := "One", steps := [st1] }

def plan2 : LessonPlan := { id := "p2", title := "Two", steps := [st1, st2] }

def plan3 : LessonPlan := { id := "p3", title := "Three", steps := [st1, st2, st3] }

def defSettings : GuideSettings :=
  { autoAdvance := false, autoAdvanceDelay := 5000, showProgress := true }

def aaSettings : GuideSettings :=
  { autoAdvance := true, autoAdvanceDelay := 5000, showProgress := true }

/-- The unit-test selector `'div'.repeat(200)` (part_005 line 119). -/
def longSelector : String := String.join (List.replicate 200 "div")

/-- An orchestrator holding a filtered plan with zero valid steps (the state after
`loadLessonPlan` when validation rejects everything). -/
def gsEmptyFixture : GuideSystem :=
  { driverInstance := none,
    ctrl := StepController.load (StepController.initController defSettings) plan0,
    gsLessonPlan := some plan0, isInitialized := true, gsLog := [] }

/-- Iterate `next()` a fixed number of times, collecting the returned booleans. -/
def nextTimes : Nat → Controller → Controller × List Bool
  | 0, c => (c, [])
  | k + 1, c =>
      let r := StepController.next c
      let rest := nextTimes k r.1
      (rest.1, r.2 :: rest.2)

/-- The at-most-one-pending-timer invariant: all pending timeouts are the one the
handle tracks, and a paused controller has none pending. -/
def timerInv (c : Controller) : Bool :=
  (c.pendingTimers.isEmpty ||
    (match c.autoAdvanceTimer with
     | some t => c.pendingTimers == [t]
     | none => false)) &&
  (!c.state.isPaused || c.pendingTimers.isEmpty)

/-- The index-in-range invariant: whenever a plan is loaded the current index is
below its step count (below 1 for an empty plan, where the index stays 0). -/
def indexInv (c : Controller) : Prop :=
  ∀ p, c.lessonPlan = some p → c.state.currentStepIndex < max 1 p.steps.length

namespace StepController

/-! Field-preservation facts for the timer and event plumbing. -/

@[simp] lemma stopAA_lessonPlan (c : Controller) :
    (stopAutoAdvance c).lessonPlan = c.lessonPlan := by
  unfold stopAutoAdvance; split <;> rfl

@[simp] lemma stopAA_state (c : Controller) :
    (stopAutoAdvance c).state = c.state := by
  unfold stopAutoAdvance; split <;> rfl

@[simp] lemma stopAA_settings (c : Controller) :
    (stopAutoAdvance c).settings = c.settings := by
  unfold stopAutoAdvance; split <;> rfl

@[simp] lemma stopAA_log (c : Controller) :
    (stopAutoAdvance c).log = c.log := by
  unfold stopAutoAdvance; split <;> rfl

@[simp] lemma stopAA_eventsCleared (c : Controller) :
    (stopAutoAdvance c).eventsCleared = c.eventsCleared := by
  unfold stopAutoAdvance; split <;> rfl

@[simp] lemma startAA_lessonPlan (c : Controller) :
    (startAutoAdvanceIfEnabled c).lessonPlan = c.lessonPlan := by
  unfold startAutoAdvanceIfEnabled; split <;> rfl

@[simp] lemma startAA_state (c : Controller) :
    (startAutoAdvanceIfEnabled c).state = c.state := by
  unfold startAutoAdvanceIfEnabled; split <;> rfl

@[simp] lemma startAA_settings (c : Controller) :
    (startAutoAdvanceIfEnabled c).settings = c.settings := by
  unfold startAutoAdvanceIfEnabled; split <;> rfl

@[simp] lemma startAA_log (c : Controller) :
    (startAutoAdvanceIfEnabled c).log = c.log := by
  unfold startAutoAdvanceIfEnabled; split <;> rfl

@[simp] lemma startAA_eventsCleared (c : Controller) :
    (startAutoAdvanceIfEnabled c).eventsCleared = c.eventsCleared := by
  unfold startAutoAdvanceIfEnabled; split <;> rfl

@[simp] lemma restartAA_lessonPlan (c : Controller) :
    (restartAutoAdvanceIfEnabled c).lessonPlan = c.lessonPlan := by
  unfold restartAutoAdvanceIfEnabled; simp

@[simp] lemma restartAA_state (c : Controller) :
    (restartAutoAdvanceIfEnabled c).state = c.state := by
  unfold restartAutoAdvanceIfEnabled; simp

@[simp] lemma restartAA_settings (c : Controller) :
    (restartAutoAdvanceIfEnabled c).settings = c.settings := by
  unfold restartAutoAdvanceIfEnabled; simp

@[simp] lemma restartAA_log (c : Controller) :
    (restartAutoAdvanceIfEnabled c).log = c.log := by
  unfold restartAutoAdvanceIfEnabled; simp

@[simp] lemma restartAA_eventsCleared (c : Controller) :
    (restartAutoAdvanceIfEnabled c).eventsCleared = c.eventsCleared := by
  unfold restartAutoAdvanceIfEnabled; simp

@[simp] lemma emit_lessonPlan (c : Controller) (e : GuideEvent) :
    (emit c e).lessonPlan = c.lessonPlan := by
  unfold emit; split <;> rfl

@[simp] lemma emit_state (c : Controller) (e : GuideEvent) :
    (emit c e).state = c.state := by
  unfold emit; split <;> rfl

@[simp] lemma emit_settings (c : Controller) (e : GuideEvent) :
    (emit c e).settings = c.settings := by
  unfold emit; split <;> rfl

@[simp] lemma emit_autoAdvanceTimer (c : Controller) (e : GuideEvent) :
    (emit c e).autoAdvanceTimer = c.autoAdvanceTimer := by
  unfold emit; split <;> rfl

@[simp] lemma emit_pendingTimers (c : Controller) (e : GuideEvent) :
    (emit c e).pendingTimers = c.pendingTimers := by
  unfold emit; split <;> rfl

@[simp] lemma emit_eventsCleared (c : Controller) (e : GuideEvent) :
    (emit c e).eventsCleared = c.eventsCleared := by
  unfold emit; split <;> rfl

lemma emit_log_not_cleared (c : Controller) (e : GuideEvent)
    (h : c.eventsCleared = false) : (emit c e).log = c.log ++ [e] := by
  unfold emit; simp [h]

@[simp] lemma emitStepChange_lessonPlan (c : Controller) :
    (emitStepChange c).lessonPlan = c.lessonPlan := by
  unfold emitStepChange; split <;> simp

@[simp] lemma emitStepChange_state (c : Controller) :
    (emitStepChange c).state = c.state := by
  unfold emitStepChange; split <;> simp

@[simp] lemma emitStepChange_settings (c : Controller) :
    (emitStepChange c).settings = c.settings := by
  unfold emitStepChange; split <;> simp

@[simp] lemma emitStepChange_autoAdvanceTimer (c : Controller) :
    (emitStepChange c).autoAdvanceTimer = c.autoAdvanceTimer := by
  unfold emitStepChange; split <;> simp

@[simp] lemma emitStepChange_pendingTimers (c : Controller) :
    (emitStepChange c).pendingTimers = c.pendingTimers := by
  unfold emitStepChange; split <;> simp

@[simp] lemma emitStepChange_eventsCleared (c : Controller) :
    (emitStepChange c).eventsCleared = c.eventsCleared := by
  unfold emitStepChange; split <;> simp

end StepController

open StepController GuideSystem TTSController

set_option maxRecDepth 10000 in
/-- C1: the shipped `validateSelector` (part_007 lines 60-67) is only the
`querySelector !== null` probe. It accepts the unit-test inputs that the test
suite (part_005 lines 112-133) requires it to reject — the 600-character
`'div'.repeat(200)` selector and the denylisted `:has`/`:not` nestings — whenever
`document.querySelector` yields a non-null value (as the test's own mock does):
the length ceiling, part-count ceiling, denylist and unique-match requirements
of the claim are absent from the code. -/
theorem c1_validateSelector_missing_guards :
    validateSelector (fun _ => QueryOutcome.returnsNonNull) longSelector = true ∧
    longSelector.length = 600 ∧
    validateSelector (fun _ => QueryOutcome.returnsNonNull) "div:has(span:has(a))" = true ∧
    validateSelector (fun _ => QueryOutcome.returnsNonNull) "*:not(:not(div))" = true := by
  refine ⟨rfl, ?_, rfl, rfl⟩
  decide

namespace TTSController

/-- The synchronous skip loop: the text handed over (if any) followed by the
non-empty texts still queued are exactly the non-empty texts that were queued. -/
lemma drainLoop_eq (q : List String) :
    (drainLoop q).2.toList ++ nonEmptyTexts (drainLoop q).1 = nonEmptyTexts q := by
  induction q with
  | nil => rfl
  | cons t rest ih =>
      unfold drainLoop
      split
      · next hemp =>
        rw [ih]
        simp [nonEmptyTexts, List.filter_cons, hemp]
      · next hemp =>
        dsimp only [Option.toList]
        simp [nonEmptyTexts, List.filter_cons, hemp]

/-- Resuming the loop keeps the handed-plus-still-queued non-empty texts equal to
the non-empty accepted texts. -/
lemma loopIteration_concat (s : TTSState)
    (h : s.spoken ++ nonEmptyTexts s.queue = nonEmptyTexts s.enqueuedLog) :
    (loopIteration s).spoken ++ nonEmptyTexts (loopIteration s).queue =
      nonEmptyTexts (loopIteration s).enqueuedLog := by
  have hd := drainLoop_eq s.queue
  unfold loopIteration
  split
  · next rest t heq =>
      rw [heq] at hd
      dsimp only [Option.toList] at hd
      dsimp only
      rw [List.append_assoc, hd]
      exact h
  · next rest heq =>
      rw [heq] at hd
      dsimp only [Option.toList] at hd
      rw [List.nil_append] at hd
      dsimp only
      rw [hd]
      exact h

lemma processQueue_concat (s : TTSState)
    (h : s.spoken ++ nonEmptyTexts s.queue = nonEmptyTexts s.enqueuedLog) :
    (processQueue s).spoken ++ nonEmptyTexts (processQueue s).queue =
      nonEmptyTexts (processQueue s).enqueuedLog := by
  unfold processQueue
  split
  · exact h
  · exact loopIteration_concat _ h

lemma enqueue_concat (s : TTSState) (t : String)
    (h : s.spoken ++ nonEmptyTexts s.queue = nonEmptyTexts s.enqueuedLog) :
    (enqueue s t).spoken ++ nonEmptyTexts (enqueue s t).queue =
      nonEmptyTexts (enqueue s t).enqueuedLog := by
  unfold enqueue
  split
  · exact h
  · dsimp only
    have h2 := h
    unfold nonEmptyTexts at h2
    have h' : s.spoken ++ nonEmptyTexts (s.queue ++ [t]) =
        nonEmptyTexts (s.enqueuedLog ++ [t]) := by
      unfold nonEmptyTexts
      rw [List.filter_append, List.filter_append, ← List.append_assoc, h2]
    split
    · exact processQueue_concat _ h'
    · exact h'

lemma speakSettled_concat (s : TTSState) (ok : Bool)
    (h : s.spoken ++ nonEmptyTexts s.queue = nonEmptyTexts s.enqueuedLog) :
    (speakSettled s ok).spoken ++ nonEmptyTexts (speakSettled s ok).queue =
      nonEmptyTexts (speakSettled s ok).enqueuedLog := by
  unfold speakSettled
  split
  · exact loopIteration_concat _ h
  · exact h

lemma ttsApply_concat (s : TTSState) (op : TTSOp)
    (h : s.spoken ++ nonEmptyTexts s.queue = nonEmptyTexts s.enqueuedLog) :
    (ttsApply s op).spoken ++ nonEmptyTexts (ttsApply s op).queue =
      nonEmptyTexts (ttsApply s op).enqueuedLog := by
  cases op with
  | enqueue t => exact enqueue_concat s t h
  | speakSettled ok => exact speakSettled_concat s ok h

lemma ttsRun_concat (ops : List TTSOp) :
    ∀ s : TTSState, s.spoken ++ nonEmptyTexts s.queue = nonEmptyTexts s.enqueuedLog →
      (ttsRun s ops).spoken ++ nonEmptyTexts (ttsRun s ops).queue =
        nonEmptyTexts (ttsRun s ops).enqueuedLog := by
  induction ops with
  | nil => intro s h; exact h
  | cons op rest ih => intro s h; exact ih _ (ttsApply_concat s op h)

/-- The drain loop treats a failed playback exactly like a successful one: the
`try`/`catch` swallows the rejection and the loop continues. -/
lemma ttsApply_outcome_irrelevant (s : TTSState) (op : TTSOp) :
    ttsApply s (flipOutcome op) = ttsApply s op := by
  cases op <;> rfl

lemma ttsRun_flip (ops : List TTSOp) :
    ∀ s : TTSState, ttsRun s (ops.map flipOutcome) = ttsRun s ops := by
  induction ops with
  | nil => intro s; rfl
  | cons op rest ih =>
      intro s
      show ttsRun (ttsApply s (flipOutcome op)) _ = ttsRun (ttsApply s op) _
      rw [ttsApply_outcome_irrelevant, ih]

end TTSController

namespace StepController

/-- Flag consistency survives `next`. -/
lemma flags_next (c : Controller)
    (h : (c.state.isPlaying && c.state.isCompleted) = false) :
    ((next c).1.state.isPlaying && (next c).1.state.isCompleted) = false := by
  unfold next
  split
  · exact h
  · split
    · exact h
    · dsimp only
      split
      · unfold complete
        simp
      · simpa using h

/-- Flag consistency is preserved by every operation. -/
lemma flags_applyOp (c : Controller) (op : Op)
    (h : (c.state.isPlaying && c.state.isCompleted) = false) :
    ((applyOp c op).state.isPlaying && (applyOp c op).state.isCompleted) = false := by
  cases op with
  | load p => simp [applyOp, load, reset]
  | start =>
      show ((start c).state.isPlaying && (start c).state.isCompleted) = false
      unfold start
      split
      · simpa using h
      · simp
  | pause =>
      show ((pause c).state.isPlaying && (pause c).state.isCompleted) = false
      unfold pause
      split
      · exact h
      · simpa using h
  | resume =>
      show ((resume c).state.isPlaying && (resume c).state.isCompleted) = false
      unfold resume
      split
      · exact h
      · simpa using h
  | stop =>
      show ((stop c).state.isPlaying && (stop c).state.isCompleted) = false
      unfold stop
      simp
  | next => exact flags_next c h
  | previous =>
      show ((previous c).1.state.isPlaying && (previous c).1.state.isCompleted) = false
      unfold previous
      split
      · exact h
      · split
        · exact h
        · simp
  | goToStep i =>
      show ((goToStep c i).1.state.isPlaying && (goToStep c i).1.state.isCompleted) = false
      unfold goToStep
      split
      · exact h
      · split
        · exact h
        · simp
  | updateSettings a d s =>
      show ((updateSettings c a d s).state.isPlaying &&
            (updateSettings c a d s).state.isCompleted) = false
      unfold updateSettings
      split
      · simpa using h
      · simpa using h
  | destroy =>
      show ((destroy c).state.isPlaying && (destroy c).state.isCompleted) = false
      unfold destroy
      simpa using h
  | timerFire t =>
      show ((timerFire c t).state.isPlaying && (timerFire c t).state.isCompleted) = false
      unfold timerFire
      split
      · dsimp only
        split
        · exact flags_next _ h
        · exact h
      · exact h

/-! Timer-invariant machinery for the auto-advance claims. -/

lemma timerInv_of_empty (c : Controller) (h : c.pendingTimers = []) :
    timerInv c = true := by
  unfold timerInv
  simp [h]

lemma timerInv_of_tracked (c : Controller) (t : Nat)
    (hh : c.autoAdvanceTimer = some t) (hp : c.pendingTimers = [t])
    (hpause : c.state.isPaused = false) : timerInv c = true := by
  unfold timerInv
  simp [hh, hp, hpause]

/-- In an invariant state, all pending timeouts are tracked by the handle. -/
lemma timerInv_tracked (c : Controller) (h : timerInv c = true) :
    c.pendingTimers = [] ∨ ∃ t, c.autoAdvanceTimer = some t ∧ c.pendingTimers = [t] := by
  unfold timerInv at h
  simp only [Bool.and_eq_true, Bool.or_eq_true] at h
  rcases h.1 with he | hm
  · exact Or.inl (by simpa using he)
  · cases hh : c.autoAdvanceTimer with
    | none => rw [hh] at hm; simp at hm
    | some t =>
        rw [hh] at hm
        simp at hm
        exact Or.inr ⟨t, rfl, hm⟩

/-- In an invariant state, a paused controller has no pending timeout. -/
lemma timerInv_paused (c : Controller) (h : timerInv c = true)
    (hp : c.state.isPaused = true) : c.pendingTimers = [] := by
  unfold timerInv at h
  simp only [Bool.and_eq_true, Bool.or_eq_true] at h
  rcases h.2 with hnp | he
  · rw [hp] at hnp; simp at hnp
  · simpa using he

/-- Cancelling clears everything pending, as long as the pending bag was tracked. -/
lemma stopAA_pending_eq_nil (c : Controller)
    (h1 : c.pendingTimers = [] ∨ ∃ t, c.autoAdvanceTimer = some t ∧ c.pendingTimers = [t]) :
    (stopAutoAdvance c).pendingTimers = [] := by
  unfold stopAutoAdvance
  rcases h1 with hemp | ⟨t, hh, hp⟩
  · split
    · simp [hemp]
    · exact hemp
  · rw [hh]
    dsimp only
    rw [hp]
    simp

/-- Arming from a state with nothing pending restores the invariant. -/
lemma startAA_inv_of_empty (c : Controller) (hp : c.pendingTimers = []) :
    timerInv (startAutoAdvanceIfEnabled c) = true := by
  unfold startAutoAdvanceIfEnabled
  split
  · next hcond =>
      simp only [Bool.and_eq_true, Bool.not_eq_true'] at hcond
      exact timerInv_of_tracked _ c.nextTimerId rfl (by simp [hp]) hcond.2
  · exact timerInv_of_empty c hp

/-- Cancel-then-re-arm restores the invariant from any tracked state. -/
lemma restartAA_inv_of_tracked (c : Controller)
    (h1 : c.pendingTimers = [] ∨ ∃ t, c.autoAdvanceTimer = some t ∧ c.pendingTimers = [t]) :
    timerInv (restartAutoAdvanceIfEnabled c) = true :=
  startAA_inv_of_empty _ (stopAA_pending_eq_nil c h1)

lemma timerInv_len (c : Controller) (h : timerInv c = true) :
    c.pendingTimers.length ≤ 1 := by
  rcases timerInv_tracked c h with he | ⟨t, _, hp⟩
  · simp [he]
  · simp [hp]

/-- The timer invariant survives `next` (cancel-then-re-arm or completion). -/
lemma timer_next (c : Controller) (h : timerInv c = true) :
    timerInv (next c).1 = true := by
  unfold next
  split
  · exact h
  · split
    · exact h
    · dsimp only
      split
      · -- complete: stopAutoAdvance empties the tracked bag
        apply timerInv_of_empty
        unfold complete
        simp only [emit_pendingTimers]
        exact stopAA_pending_eq_nil _ (by
          simpa using timerInv_tracked c h)
      · -- advance: restart cancels before arming
        apply restartAA_inv_of_tracked
        simp only [emitStepChange_pendingTimers, emitStepChange_autoAdvanceTimer]
        simpa using timerInv_tracked c h

/-- The timer invariant is preserved by every operation except `start`. -/
lemma timer_applyOp (c : Controller) (op : Op) (h : timerInv c = true)
    (hop : op ≠ Op.start) : timerInv (applyOp c op) = true := by
  cases op with
  | load p =>
      show timerInv (load c p) = true
      apply timerInv_of_empty
      unfold load reset
      simp only [stopAA_pending_eq_nil]
      exact stopAA_pending_eq_nil _ (by simpa using timerInv_tracked c h)
  | start => exact absurd rfl hop
  | pause =>
      show timerInv (pause c) = true
      unfold pause
      split
      · exact h
      · apply timerInv_of_empty
        simp only [emit_pendingTimers]
        exact stopAA_pending_eq_nil _ (by simpa using timerInv_tracked c h)
  | resume =>
      show timerInv (resume c) = true
      unfold resume
      split
      · exact h
      · next hguard =>
        simp only [Bool.or_eq_true, Bool.not_eq_true'] at hguard
        push_neg at hguard
        have hpaused : c.state.isPaused = true := by
          rcases hguard with ⟨_, h2⟩
          cases hpp : c.state.isPaused
          · exact absurd hpp h2
          · rfl
        apply startAA_inv_of_empty
        simp only [emit_pendingTimers]
        exact timerInv_paused c h hpaused
  | stop =>
      show timerInv (stop c) = true
      apply timerInv_of_empty
      unfold stop
      exact stopAA_pending_eq_nil _ (by simpa using timerInv_tracked c h)
  | next => exact timer_next c h
  | previous =>
      show timerInv (previous c).1 = true
      unfold previous
      split
      · exact h
      · split
        · exact h
        · apply restartAA_inv_of_tracked
          simp only [emitStepChange_pendingTimers, emitStepChange_autoAdvanceTimer]
          simpa using timerInv_tracked c h
  | goToStep i =>
      show timerInv (goToStep c i).1 = true
      unfold goToStep
      split
      · exact h
      · split
        · exact h
        · apply restartAA_inv_of_tracked
          simp only [emitStepChange_pendingTimers, emitStepChange_autoAdvanceTimer]
          simpa using timerInv_tracked c h
  | updateSettings a d s =>
      show timerInv (updateSettings c a d s) = true
      unfold updateSettings
      split
      · apply restartAA_inv_of_tracked
        simpa using timerInv_tracked c h
      · exact h
  | destroy =>
      show timerInv (destroy c) = true
      apply timerInv_of_empty
      unfold destroy
      exact stopAA_pending_eq_nil _ (by simpa using timerInv_tracked c h)
  | timerFire t =>
      show timerInv (timerFire c t) = true
      unfold timerFire
      split
      · next hmem =>
        dsimp only
        have hpend : (c.pendingTimers.erase t) = [] := by
          rcases timerInv_tracked c h with he | ⟨u, _, hp⟩
          · rw [he] at hmem; simp at hmem
          · rw [hp] at hmem
            simp at hmem
            rw [hp, hmem]
            simp
        split
        · exact timer_next _ (timerInv_of_empty _ hpend)
        · exact timerInv_of_empty _ hpend
      · exact h

/-- When the index is in range, `getCurrentStep` finds a step. -/
lemma getCurrentStep_isSome (c : Controller) (p : LessonPlan)
    (hplan : c.lessonPlan = some p)
    (hidx : c.state.currentStepIndex < p.steps.length) :
    ∃ s, getCurrentStep c = some s := by
  unfold getCurrentStep
  rw [hplan]
  dsimp only
  rw [if_neg (by omega)]
  exact ⟨_, List.get?_eq_get hidx⟩

/-- When a current step exists and the callbacks are wired, `emitStepChange`
appends exactly one `stepChange` at the current index. -/
lemma emitStepChange_log_of_isSome (c : Controller) (s : LessonStep)
    (hs : getCurrentStep c = some s) (hec : c.eventsCleared = false) :
    (emitStepChange c).log = c.log ++ [.stepChange c.state.currentStepIndex] := by
  unfold emitStepChange
  rw [hs]
  exact emit_log_not_cleared c _ hec

/-! Error-event accounting: which operations can deliver `onError`. -/

lemma emit_countP_err (c : Controller) (e : GuideEvent)
    (hne : isErroredEvent e = false) :
    (emit c e).log.countP isErroredEvent = c.log.countP isErroredEvent := by
  unfold emit
  split
  · rfl
  · simp [List.countP_append, List.countP_cons, hne]

lemma emitStepChange_countP_err (c : Controller) :
    (emitStepChange c).log.countP isErroredEvent = c.log.countP isErroredEvent := by
  unfold emitStepChange
  split
  · exact emit_countP_err c _ rfl
  · rfl

lemma next_countP_err (c : Controller) :
    (next c).1.log.countP isErroredEvent = c.log.countP isErroredEvent := by
  unfold next
  split
  · rfl
  · split
    · rfl
    · dsimp only
      split
      · unfold complete
        rw [emit_countP_err _ GuideEvent.completed rfl, stopAA_log]
      · rw [restartAA_log, emitStepChange_countP_err]

/-- No operation other than `start` can deliver `onError`. -/
lemma applyOp_countP_err (c : Controller) (op : Op) (hop : op ≠ Op.start) :
    (applyOp c op).log.countP isErroredEvent = c.log.countP isErroredEvent := by
  cases op with
  | load p =>
      show (load c p).log.countP isErroredEvent = _
      simp only [load, reset, stopAA_log]
  | start => exact absurd rfl hop
  | pause =>
      show (pause c).log.countP isErroredEvent = _
      unfold pause
      split
      · rfl
      · rw [emit_countP_err _ GuideEvent.paused rfl, stopAA_log]
  | resume =>
      show (resume c).log.countP isErroredEvent = _
      unfold resume
      split
      · rfl
      · rw [startAA_log, emit_countP_err _ GuideEvent.resumed rfl]
  | stop =>
      show (stop c).log.countP isErroredEvent = _
      unfold stop
      rw [stopAA_log]
  | next => exact next_countP_err c
  | previous =>
      show (previous c).1.log.countP isErroredEvent = _
      unfold previous
      split
      · rfl
      · split
        · rfl
        · rw [restartAA_log, emitStepChange_countP_err]
  | goToStep i =>
      show (goToStep c i).1.log.countP isErroredEvent = _
      unfold goToStep
      split
      · rfl
      · split
        · rfl
        · rw [restartAA_log, emitStepChange_countP_err]
  | updateSettings a d s =>
      show (updateSettings c a d s).log.countP isErroredEvent = _
      unfold updateSettings
      split
      · rw [restartAA_log]
      · rfl
  | destroy =>
      show (destroy c).log.countP isErroredEvent = _
      unfold destroy
      rw [stopAA_log]
  | timerFire t =>
      show (timerFire c t).log.countP isErroredEvent = _
      unfold timerFire
      split
      · dsimp only
        split
        · exact next_countP_err _
        · rfl
      · rfl

/-! Machinery for the run-to-completion claim. -/

/-- A `stepChange` is never counted as a completion. -/
lemma countP_complete_map_sc (l : List Nat) :
    (l.map GuideEvent.stepChange).countP isCompleteEvent = 0 := by
  induction l with
  | nil => rfl
  | cons a l ih => simp [List.countP_cons, ih, isCompleteEvent]

/-- The step-change indices of a pure `stepChange` log are the indices themselves. -/
lemma stepChangeIndices_map_sc (l : List Nat) :
    stepChangeIndices (l.map GuideEvent.stepChange) = l := by
  induction l with
  | nil => rfl
  | cons a l ih => simp [stepChangeIndices] at ih ⊢; exact ih

lemma stepChangeIndices_append (l1 l2 : List GuideEvent) :
    stepChangeIndices (l1 ++ l2) = stepChangeIndices l1 ++ stepChangeIndices l2 :=
  List.filterMap_append l1 l2 _

/-- A non-final `next()`: with a loaded plan, not completed, and at least two
indices of room, it advances by one, fires one `onStepChange`, and returns
`true`, leaving the playing/paused flags untouched. -/
lemma next_advance (c : Controller) (p : LessonPlan)
    (hplan : c.lessonPlan = some p)
    (hcomp : c.state.isCompleted = false)
    (hec : c.eventsCleared = false)
    (hlt : c.state.currentStepIndex + 1 < p.steps.length) :
    (next c).2 = true ∧
    (next c).1.lessonPlan = some p ∧
    (next c).1.state.currentStepIndex = c.state.currentStepIndex + 1 ∧
    (next c).1.state.isPlaying = c.state.isPlaying ∧
    (next c).1.state.isPaused = c.state.isPaused ∧
    (next c).1.state.isCompleted = false ∧
    (next c).1.eventsCleared = false ∧
    (next c).1.log = c.log ++ [.stepChange (c.state.currentStepIndex + 1)] := by
  unfold next
  split
  · next heq => rw [hplan] at heq; cases heq
  · next q heq =>
      rw [hplan] at heq
      cases heq
      rw [if_neg (by simp [hcomp])]
      dsimp only
      rw [if_neg (by omega : ¬ p.steps.length ≤ c.state.currentStepIndex + 1)]
      obtain ⟨s, hs⟩ := getCurrentStep_isSome
        (c := { c with state := { c.state with
                  currentStepIndex := c.state.currentStepIndex + 1 } })
        (p := p) hplan (by dsimp only; omega)
      refine ⟨rfl, ?_, ?_, ?_, ?_, ?_, ?_, ?_⟩
      · simp only [restartAA_lessonPlan, emitStepChange_lessonPlan]
        exact hplan
      · simp only [restartAA_state, emitStepChange_state]
      · simp only [restartAA_state, emitStepChange_state]
      · simp only [restartAA_state, emitStepChange_state]
      · simp only [restartAA_state, emitStepChange_state]
        exact hcomp
      · simp only [restartAA_eventsCleared, emitStepChange_eventsCleared]
        exact hec
      · rw [restartAA_log]
        exact emitStepChange_log_of_isSome _ s hs hec

/-- The final `next()`: with the index on the last step it transitions to
completed, stops playing, fires exactly one `onComplete`, and returns `false`. -/
lemma next_complete (c : Controller) (p : LessonPlan)
    (hplan : c.lessonPlan = some p)
    (hcomp : c.state.isCompleted = false)
    (hec : c.eventsCleared = false)
    (hend : p.steps.length ≤ c.state.currentStepIndex + 1) :
    (next c).2 = false ∧
    (next c).1.state.isCompleted = true ∧
    (next c).1.state.isPlaying = false ∧
    (next c).1.log = c.log ++ [.completed] := by
  unfold next
  split
  · next heq => rw [hplan] at heq; cases heq
  · next q heq =>
      rw [hplan] at heq
      cases heq
      rw [if_neg (by simp [hcomp])]
      dsimp only
      rw [if_pos hend]
      refine ⟨rfl, ?_, ?_, ?_⟩
      · unfold complete
        simp
      · unfold complete
        simp
      · unfold complete
        rw [emit_log_not_cleared _ _ (by simpa using hec), stopAA_log]

/-- Splitting an iterated `next()` run. -/
lemma nextTimes_split (a b : Nat) :
    ∀ c : Controller, nextTimes (a + b) c =
      ((nextTimes b (nextTimes a c).1).1,
       (nextTimes a c).2 ++ (nextTimes b (nextTimes a c).1).2) := by
  induction a with
  | zero =>
      intro c
      simp [nextTimes, Nat.zero_add]
  | succ a ih =>
      intro c
      have h : a + 1 + b = (a + b) + 1 := by omega
      rw [h]
      simp only [nextTimes]
      rw [ih (next c).1]
      simp

/-- Iterating `next()` while room remains: each call returns `true`, advances the
index by one and fires exactly the step changes at the new indices, in order. -/
lemma nextTimes_progress (p : LessonPlan) :
    ∀ (m : Nat) (c : Controller),
      c.lessonPlan = some p →
      c.state.isPlaying = true →
      c.state.isPaused = false →
      c.state.isCompleted = false →
      c.eventsCleared = false →
      c.state.currentStepIndex + m < p.steps.length →
      (nextTimes m c).2 = List.replicate m true ∧
      (nextTimes m c).1.lessonPlan = some p ∧
      (nextTimes m c).1.state.currentStepIndex = c.state.currentStepIndex + m ∧
      (nextTimes m c).1.state.isPlaying = true ∧
      (nextTimes m c).1.state.isPaused = false ∧
      (nextTimes m c).1.state.isCompleted = false ∧
      (nextTimes m c).1.eventsCleared = false ∧
      (nextTimes m c).1.log =
        c.log ++ (List.range' (c.state.currentStepIndex + 1) m).map GuideEvent.stepChange := by
  intro m
  induction m with
  | zero =>
      intro c hplan hplay hpause hcomp hec hlt
      exact ⟨rfl, hplan, rfl, hplay, hpause, hcomp, hec, by simp [nextTimes]⟩
  | succ m ih =>
      intro c hplan hplay hpause hcomp hec hlt
      obtain ⟨hr2, hplan', hidx', hplay', hpause', hcomp', hec', hlog'⟩ :=
        next_advance c p hplan hcomp hec (by omega)
      obtain ⟨ihres, ihplan, ihidx, ihplay, ihpause, ihcomp, ihec, ihlog⟩ :=
        ih (next c).1 hplan' (by rw [hplay']; exact hplay)
          (by rw [hpause']; exact hpause) hcomp' hec' (by rw [hidx']; omega)
      simp only [nextTimes]
      refine ⟨?_, ihplan, ?_, ihplay, ihpause, ihcomp, ihec, ?_⟩
      · rw [hr2, ihres]
        simp [List.replicate_succ]
      · rw [ihidx, hidx']
        omega
      · rw [ihlog, hlog', hidx', List.range'_succ]
        simp

/-- After `load` then `start` on a fresh controller with a nonempty plan: index 0,
playing, and the log holds exactly `onStart` then `onStepChange(0)`. -/
lemma start_after_load (settings : GuideSettings) (p : LessonPlan)
    (hN : 1 ≤ p.steps.length) :
    (start (load (initController settings) p)).lessonPlan = some p ∧
    (start (load (initController settings) p)).state =
      { currentStepIndex := 0, isPlaying := true, isPaused := false, isCompleted := false } ∧
    (start (load (initController settings) p)).eventsCleared = false ∧
    (start (load (initController settings) p)).log = [.started, .stepChange 0] := by
  unfold start
  split
  · next heq => cases heq
  · next q heq =>
      have hq : q = p := by
        have : (load (initController settings) p).lessonPlan = some p := rfl
        rw [this] at heq
        cases heq
        rfl
      cases hq
      obtain ⟨s, hs⟩ := getCurrentStep_isSome
        (c := emit { load (initController settings) p with
                 state := { currentStepIndex := 0, isPlaying := true,
                            isPaused := false, isCompleted := false } } .started)
        (p := p) rfl (by simp; omega)
      refine ⟨?_, ?_, ?_, ?_⟩
      · simp only [startAA_lessonPlan, emitStepChange_lessonPlan, emit_lessonPlan]
        rfl
      · simp only [startAA_state, emitStepChange_state, emit_state]
      · simp only [startAA_eventsCleared, emitStepChange_eventsCleared, emit_eventsCleared]
        rfl
      · rw [startAA_log, emitStepChange_log_of_isSome _ s hs rfl,
            emit_log_not_cleared _ _ rfl]
        simp
        rfl

/-- The index bound survives `next`. -/
lemma index_next (c : Controller) (h : indexInv c) : indexInv (next c).1 := by
  unfold next
  split
  · exact h
  · next p heq =>
    split
    · exact h
    · dsimp only
      split
      · intro q hq
        simp only [complete, emit_lessonPlan, stopAA_lessonPlan] at hq
        simp only [complete, emit_state, stopAA_state]
        exact h q hq
      · next hlt =>
        intro q hq
        simp only [restartAA_lessonPlan, emitStepChange_lessonPlan] at hq
        rw [heq] at hq
        cases hq
        simp only [restartAA_state, emitStepChange_state]
        have h2 : p.steps.length ≤ max 1 p.steps.length := le_max_right _ _
        omega

/-- The index bound is preserved by every operation. -/
lemma index_applyOp (c : Controller) (op : Op) (h : indexInv c) :
    indexInv (applyOp c op) := by
  cases op with
  | load p =>
      intro q hq
      simp only [applyOp, load, reset, stopAA_lessonPlan, stopAA_state] at hq ⊢
      have h1 : (1 : Nat) ≤ max 1 q.steps.length := le_max_left _ _
      omega
  | start =>
      show indexInv (start c)
      unfold start
      split
      · intro q hq
        simp only [emit_lessonPlan] at hq
        simp only [emit_state]
        exact h q hq
      · intro q hq
        simp only [startAA_lessonPlan, emitStepChange_lessonPlan, emit_lessonPlan] at hq
        simp only [startAA_state, emitStepChange_state, emit_state]
        have h1 : (1 : Nat) ≤ max 1 q.steps.length := le_max_left _ _
        omega
  | pause =>
      show indexInv (pause c)
      unfold pause
      split
      · exact h
      · intro q hq
        simp only [emit_lessonPlan, stopAA_lessonPlan] at hq
        simp only [emit_state, stopAA_state]
        exact h q hq
  | resume =>
      show indexInv (resume c)
      unfold resume
      split
      · exact h
      · intro q hq
        simp only [startAA_lessonPlan, emit_lessonPlan] at hq
        simp only [startAA_state, emit_state]
        exact h q hq
  | stop =>
      show indexInv (stop c)
      unfold stop
      intro q hq
      simp only [stopAA_lessonPlan] at hq
      simp only [stopAA_state]
      exact h q hq
  | next => exact index_next c h
  | previous =>
      show indexInv (previous c).1
      unfold previous
      split
      · exact h
      · next p heq =>
        split
        · exact h
        · intro q hq
          simp only [restartAA_lessonPlan, emitStepChange_lessonPlan] at hq
          rw [heq] at hq
          cases hq
          have hp := h p heq
          simp only [restartAA_state, emitStepChange_state]
          omega
  | goToStep i =>
      show indexInv (goToStep c i).1
      unfold goToStep
      split
      · exact h
      · next p heq =>
        split
        · exact h
        · next hguard =>
          intro q hq
          simp only [restartAA_lessonPlan, emitStepChange_lessonPlan] at hq
          rw [heq] at hq
          cases hq
          simp only [Bool.or_eq_true, decide_eq_true_eq, not_or] at hguard
          simp only [restartAA_state, emitStepChange_state]
          have h2 : p.steps.length ≤ max 1 p.steps.length := le_max_right _ _
          omega
  | updateSettings a d s =>
      show indexInv (updateSettings c a d s)
      unfold updateSettings
      split
      · intro q hq
        simp only [restartAA_lessonPlan] at hq
        simp only [restartAA_state]
        exact h q hq
      · intro q hq
        exact h q hq
  | destroy =>
      show indexInv (destroy c)
      unfold destroy
      intro q hq
      simp at hq
  | timerFire t =>
      show indexInv (timerFire c t)
      unfold timerFire
      split
      · dsimp only
        split
        · exact index_next _ (fun q hq => h q hq)
        · exact fun q hq => h q hq
      · exact h

lemma index_run (ops : List Op) :
    ∀ c : Controller, indexInv c → indexInv (run c ops) := by
  induction ops with
  | nil => intro c h; exact h
  | cons op rest ih => intro c h; exact ih _ (index_applyOp c op h)

lemma flags_run (ops : List Op) :
    ∀ c : Controller, (c.state.isPlaying && c.state.isCompleted) = false →
      ((run c ops).state.isPlaying && (run c ops).state.isCompleted) = false := by
  induction ops with
  | nil => intro c h; exact h
  | cons op rest ih => intro c h; exact ih _ (flags_applyOp c op h)

end StepController

/-- C10: from a completed state with a positive index (as reached by finishing a
plan of at least two steps), `previous()` returns `true`, decrements the index,
clears `isCompleted`, fires `onStepChange` at the new index — and leaves
`isPlaying` exactly as it was (`false`): moving backward out of completed does
not re-enter the playing state. -/
theorem c10_previous_from_completed (c : Controller) (p : LessonPlan)
    (hplan : c.lessonPlan = some p)
    (hlen : 2 ≤ p.steps.length)
    (hcomp : c.state.isCompleted = true)
    (hplay : c.state.isPlaying = false)
    (hpos : 0 < c.state.currentStepIndex)
    (hidx : c.state.currentStepIndex < p.steps.length)
    (hec : c.eventsCleared = false) :
    (previous c).2 = true ∧
    (previous c).1.state.currentStepIndex = c.state.currentStepIndex - 1 ∧
    (previous c).1.state.isCompleted = false ∧
    (previous c).1.state.isPlaying = false ∧
    (previous c).1.log = c.log ++ [.stepChange (c.state.currentStepIndex - 1)] := by
  unfold previous
  split
  · next heq => rw [hplan] at heq; cases heq
  · next q heq =>
      rw [hplan] at heq
      cases heq
      rw [if_neg (by omega : ¬ c.state.currentStepIndex = 0)]
      obtain ⟨s, hs⟩ := getCurrentStep_isSome
        (c := { c with state := { c.state with
                  currentStepIndex := c.state.currentStepIndex - 1, isCompleted := false } })
        (p := p) hplan (by dsimp only; omega)
      refine ⟨rfl, ?_, ?_, ?_, ?_⟩
      · simp only [restartAA_state, emitStepChange_state]
      · simp only [restartAA_state, emitStepChange_state]
      · simp only [restartAA_state, emitStepChange_state]
        exact hplay
      · rw [restartAA_log]
        exact emitStepChange_log_of_isSome _ s hs hec

/-- C10 witness: run `load plan2; start; next; next` to reach the completed state
at index 1, then step backward. -/
theorem c10_witness :
    ((run (initController defSettings) [.load plan2, .start, .next, .next]).lessonPlan
        = some plan2 ∧
     2 ≤ plan2.steps.length ∧
     (run (initController defSettings) [.load plan2, .start, .next, .next]).state.isCompleted
        = true ∧
     (run (initController defSettings) [.load plan2, .start, .next, .next]).state.isPlaying
        = false) ∧
    ((previous (run (initController defSettings) [.load plan2, .start, .next, .next])).2 = true ∧
     (previous (run (initController defSettings) [.load plan2, .start, .next, .next])).1.state.currentStepIndex
        = (run (initController defSettings) [.load plan2, .start, .next, .next]).state.currentStepIndex - 1 ∧
     (previous (run (initController defSettings) [.load plan2, .start, .next, .next])).1.state.isCompleted
        = false ∧
     (previous (run (initController defSettings) [.load plan2, .start, .next, .next])).1.state.isPlaying
        = false ∧
     (previous (run (initController defSettings) [.load plan2, .start, .next, .next])).1.log
        = (run (initController defSettings) [.load plan2, .start, .next, .next]).log ++
          [.stepChange ((run (initController defSettings) [.load plan2, .start, .next, .next]).state.currentStepIndex - 1)]) :=
  ⟨⟨rfl, by decide, rfl, rfl⟩,
   c10_previous_from_completed
     (run (initController defSettings) [.load plan2, .start, .next, .next]) plan2
     rfl (by decide) rfl rfl (by decide) (by decide) rfl⟩

/-- C2 amended: every public operation other than `start()` (timer expiries
included) preserves the at-most-one-pending-timer invariant: the navigation
operations cancel the pending timeout before arming a fresh one, and the
remaining operations either cancel it or (like `resume()`) can only arm from a
state where `pause()` already cancelled it. `start()` is the exception: it arms
without cancelling, so a `start()` while a timer is pending leaves two pending
(see the counterexample). -/
theorem c2_amended_cancel_before_arm (c : Controller) (op : Op)
    (hinv : timerInv c = true) (hop : op ≠ Op.start) :
    timerInv (applyOp c op) = true ∧ (applyOp c op).pendingTimers.length ≤ 1 :=
  have h2 := timer_applyOp c op hinv hop
  ⟨h2, timerInv_len _ h2⟩

/-- C2 witness: the invariant holds on a fresh controller and is preserved by a
concrete non-`start` operation. -/
theorem c2_amended_witness :
    timerInv (initController aaSettings) = true ∧ Op.next ≠ Op.start ∧
    (timerInv (applyOp (initController aaSettings) Op.next) = true ∧
     (applyOp (initController aaSettings) Op.next).pendingTimers.length ≤ 1) :=
  ⟨by decide, by decide,
   c2_amended_cancel_before_arm (initController aaSettings) Op.next (by decide) (by decide)⟩

/-- C5: for every plan with `N ≥ 1` steps loaded into a fresh controller, after
`start()`, calling `next()` exactly `N` times completes the lesson: the final
state has `isCompleted = true`, `onComplete` fired exactly once, `onStepChange`
fired exactly `N` times at indices `0` to `N-1` in order (index 0 by `start`,
the rest by the advancing `next` calls), the first `N - 1` calls returned `true`
and the final call returned `false`. -/
theorem c5_run_to_completion (settings : GuideSettings) (p : LessonPlan) (N : Nat)
    (hN : p.steps.length = N) (hpos : 1 ≤ N) :
    (nextTimes N (start (load (initController settings) p))).1.state.isCompleted = true ∧
    (nextTimes N (start (load (initController settings) p))).1.log.countP isCompleteEvent = 1 ∧
    stepChangeIndices (nextTimes N (start (load (initController settings) p))).1.log =
      List.range N ∧
    (nextTimes N (start (load (initController settings) p))).2 =
      List.replicate (N - 1) true ++ [false] := by
  obtain ⟨Splan, Sstate, Sec, Slog⟩ := start_after_load settings p (by omega)
  obtain ⟨Pres, Pplan, Pidx, Pplay, Ppause, Pcomp, Pec, Plog⟩ :=
    nextTimes_progress p (N - 1) (start (load (initController settings) p))
      Splan (by rw [Sstate]) (by rw [Sstate]) (by rw [Sstate]) Sec
      (by rw [Sstate, hN]; show 0 + (N - 1) < N; omega)
  obtain ⟨Fres, Fcomp, Fplay, Flog⟩ :=
    next_complete (nextTimes (N - 1) (start (load (initController settings) p))).1 p
      Pplan Pcomp Pec
      (by rw [Pidx, Sstate, hN]; show N ≤ 0 + (N - 1) + 1; omega)
  have hsplit : N - 1 + 1 = N := by omega
  have hNT := nextTimes_split (N - 1) 1 (start (load (initController settings) p))
  rw [hsplit] at hNT
  have h1 : ∀ X : Controller, nextTimes 1 X = ((next X).1, [(next X).2]) := fun X => rfl
  rw [h1] at hNT
  rw [hNT]
  dsimp only
  refine ⟨Fcomp, ?_, ?_, ?_⟩
  · rw [Flog, Plog, Slog]
    simp [List.countP_append, countP_complete_map_sc, List.countP_cons, isCompleteEvent]
  · rw [Flog, Plog, Slog, stepChangeIndices_append, stepChangeIndices_append,
        stepChangeIndices_map_sc, Sstate]
    show ([0] ++ List.range' (0 + 1) (N - 1)) ++ [] = List.range N
    rw [List.range_eq_range', ← hsplit, List.range'_succ]
    simp
  · rw [Pres, Fres]

/-- C5 witness: the three-step plan completes after three `next()` calls. -/
theorem c5_witness :
    (plan3.steps.length = 3 ∧ 1 ≤ 3) ∧
    ((nextTimes 3 (start (load (initController defSettings) plan3))).1.state.isCompleted = true ∧
     (nextTimes 3 (start (load (initController defSettings) plan3))).1.log.countP isCompleteEvent
        = 1 ∧
     stepChangeIndices (nextTimes 3 (start (load (initController defSettings) plan3))).1.log =
        List.range 3 ∧
     (nextTimes 3 (start (load (initController defSettings) plan3))).2 =
        List.replicate (3 - 1) true ++ [false]) :=
  ⟨⟨rfl, by decide⟩, c5_run_to_completion defSettings plan3 3 rfl (by decide)⟩

/-- C6: whenever a plan with at least one step is loaded, the current step index
is strictly below the step count, and this holds after every sequence of public
operations (timer expiries included); moreover an out-of-range `goToStep` (negative
index or index at or beyond the step count) and a `previous()` at index 0 return
`false` and leave the controller unchanged. -/
theorem c6_index_in_range (settings : GuideSettings) (ops : List Op) :
    (∀ p, (run (initController settings) ops).lessonPlan = some p →
       1 ≤ p.steps.length →
       (run (initController settings) ops).state.currentStepIndex < p.steps.length) ∧
    (∀ (c : Controller) (i : Int), i < 0 → goToStep c i = (c, false)) ∧
    (∀ (c : Controller) (p : LessonPlan) (i : Int), c.lessonPlan = some p →
       (p.steps.length : Int) ≤ i → goToStep c i = (c, false)) ∧
    (∀ c : Controller, c.state.currentStepIndex = 0 → previous c = (c, false)) := by
  refine ⟨?_, ?_, ?_, ?_⟩
  · intro p hp hlen
    have hinv := index_run ops (initController settings) (fun q hq => by cases hq) p hp
    rwa [max_eq_right hlen] at hinv
  · intro c i hi
    unfold goToStep
    split
    · rfl
    · split
      · rfl
      · next hguard =>
        exfalso
        simp only [Bool.or_eq_true, decide_eq_true_eq, not_or] at hguard
        exact absurd hi hguard.1
  · intro c p i hp hge
    unfold goToStep
    split
    · rfl
    · next q heq =>
      split
      · rfl
      · next hguard =>
        exfalso
        rw [hp] at heq
        cases heq
        simp only [Bool.or_eq_true, decide_eq_true_eq, not_or] at hguard
        exact absurd hge hguard.2
  · intro c h0
    unfold previous
    split
    · rfl
    · split
      · rfl
      · next hne => exact absurd h0 hne

/-- C6 witness: the bound and the rejections at concrete inputs. -/
theorem c6_witness :
    ((run (initController defSettings) [.load plan3, .start, .next]).state.currentStepIndex <
      plan3.steps.length) ∧
    (goToStep (initController defSettings) (-1) = (initController defSettings, false)) ∧
    (goToStep (run (initController defSettings) [.load plan3])
        ((3 : Nat) : Int) = (run (initController defSettings) [.load plan3], false)) ∧
    (previous (initController defSettings) = (initController defSettings, false)) :=
  ⟨(c6_index_in_range defSettings [.load plan3, .start, .next]).1 plan3 rfl (by decide),
   (c6_index_in_range defSettings []).2.1 (initController defSettings) (-1) (by decide),
   (c6_index_in_range defSettings []).2.2.1 (run (initController defSettings) [.load plan3])
     plan3 ((3 : Nat) : Int) rfl (by decide),
   (c6_index_in_range defSettings []).2.2.2 (initController defSettings) rfl⟩

/-- C7: for every sequence of public operations (and timer expiries) on a fresh
controller, the state flags stay consistent: `isPlaying` and `isCompleted` are
never simultaneously true, i.e. a completed controller is not playing (and while
playing, `isPaused` is a plain boolean sub-state). -/
theorem c7_flag_consistency (settings : GuideSettings) (ops : List Op) :
    ((run (initController settings) ops).state.isPlaying &&
     (run (initController settings) ops).state.isCompleted) = false :=
  flags_run ops (initController settings) rfl

/-- C8: for every interleaving of `enqueue` calls and playback completions or
failures, the texts handed to the narration engine (`spoken`) followed by the
non-empty texts still queued equal, in order, exactly the non-empty texts
accepted by `enqueue` — narration is handed over one utterance at a time in
enqueue order, with nothing reordered and nothing dropped except the empty
strings that the `if (text)` guard (part_007 line 472) skips synchronously
without ever involving the engine — and replacing every playback outcome by its
opposite (failures for successes and vice versa) leaves the whole run unchanged:
a failed item is swallowed and draining continues identically with the
remaining items. -/
theorem c8_queue_in_order_failures_swallowed (ops : List TTSOp) :
    (ttsRun initTTS ops).spoken ++ nonEmptyTexts (ttsRun initTTS ops).queue =
      nonEmptyTexts (ttsRun initTTS ops).enqueuedLog ∧
    ttsRun initTTS (ops.map flipOutcome) = ttsRun initTTS ops :=
  ⟨ttsRun_concat ops initTTS rfl, ttsRun_flip ops initTTS⟩

/-- C9: when the driver (overlay engine) reports no next step — or no driver
instance exists — `GuideSystem.next()` returns `false` and changes nothing: the
inner controller's `next()` is never invoked, so the controller cannot transition
to completed and no `onComplete` can be fired through this path. -/
theorem c9_gsNext_blocked_at_last_step (gs : GuideSystem) :
    gsNext gs false = (gs, false) ∧
    (gsNext gs false).1.ctrl.state.isCompleted = gs.ctrl.state.isCompleted ∧
    ((gsNext gs false).1.gsLog.countP isCompleteEvent) = gs.gsLog.countP isCompleteEvent := by
  have h : gsNext gs false = (gs, false) := by
    unfold gsNext; split <;> rfl
  exact ⟨h, by rw [h], by rw [h]⟩

/-- C2 counterexample: with auto-advance enabled, `load; start(); start()` on one
controller leaves two timeouts pending — `start()` arms a fresh timer without
cancelling the previously pending one, refuting the at-most-one-pending-timer
claim as stated. -/
theorem c2_counterexample_double_start :
    (run (initController aaSettings) [.load plan1, .start, .start]).pendingTimers.length = 2 := by
  decide

/-- C3 counterexample: `StepController.start()` with a loaded zero-step plan does
begin playing (`isPlaying` becomes `true`) and fires no error: its only error
condition is the absence of a loaded plan, so the claim as stated about the Step
Controller is false. -/
theorem c3_counterexample_empty_plan_start :
    (start (load (initController defSettings) plan0)).state.isPlaying = true ∧
    (start (load (initController defSettings) plan0)).log.countP isErroredEvent = 0 := by
  exact ⟨rfl, by decide⟩

/-- C3 amended: the zero-valid-steps refusal lives in the Guide Orchestrator, not
the Step Controller. `GuideSystem.start()` with an absent or zero-step filtered
plan fires `onError`, returns `false` and leaves the controller untouched (so
`isPlaying` stays `false`); `StepController.start()` itself fires `onError` only
when no plan is loaded, never reports an error once any plan (even an empty one)
is loaded, and no controller operation other than `start` can deliver `onError`. -/
theorem c3_amended_error_reporting :
    (∀ (gs : GuideSystem) (p : LessonPlan), gs.gsLessonPlan = some p →
       p.steps.length = 0 →
       gsStart gs = ({ gs with gsLog := gs.gsLog ++ [GuideEvent.errored] }, false)) ∧
    (∀ c : Controller, c.lessonPlan = none →
       StepController.start c = emit c .errored) ∧
    (∀ (c : Controller) (p : LessonPlan), c.lessonPlan = some p →
       (StepController.start c).log.countP isErroredEvent = c.log.countP isErroredEvent) ∧
    (∀ (c : Controller) (op : Op), op ≠ Op.start →
       (applyOp c op).log.countP isErroredEvent = c.log.countP isErroredEvent) := by
  refine ⟨?_, ?_, ?_, applyOp_countP_err⟩
  · intro gs p hp h0
    unfold gsStart
    rw [hp]
    dsimp only
    rw [if_pos h0]
  · intro c hc
    unfold StepController.start
    rw [hc]
  · intro c p hp
    unfold StepController.start
    rw [hp]
    dsimp only
    rw [startAA_log, emitStepChange_countP_err, emit_countP_err _ GuideEvent.started rfl]

/-- C3 witness: the amended statement at concrete inputs: an orchestrator whose
filtered plan is empty, a fresh controller with no plan, a controller with a
loaded empty plan, and a non-`start` operation. -/
theorem c3_amended_witness :
    (gsStart gsEmptyFixture =
       ({ gsEmptyFixture with gsLog := gsEmptyFixture.gsLog ++ [GuideEvent.errored] }, false)) ∧
    (StepController.start (initController defSettings) =
       emit (initController defSettings) .errored) ∧
    ((StepController.start (load (initController defSettings) plan0)).log.countP isErroredEvent =
       (load (initController defSettings) plan0).log.countP isErroredEvent) ∧
    ((applyOp (initController defSettings) Op.pause).log.countP isErroredEvent =
       (initController defSettings).log.countP isErroredEvent) :=
  ⟨c3_amended_error_reporting.1 gsEmptyFixture plan0 rfl rfl,
   c3_amended_error_reporting.2.1 (initController defSettings) rfl,
   c3_amended_error_reporting.2.2.1 (load (initController defSettings) plan0) plan0 rfl,
   c3_amended_error_reporting.2.2.2 (initController defSettings) Op.pause (by decide)⟩

/-- C4 counterexample: after `load; start(); destroy()` the controller state still
has `isPlaying = true` — `destroy()` does not reset the state record to
`{0, false, false, false}`, refuting the claim as stated. -/
theorem c4_counterexample_destroy_after_start :
    (run (initController defSettings) [.load plan1, .start, .destroy]).state.isPlaying = true ∧
    (run (initController defSettings) [.load plan1, .start, .destroy]).state ≠
      { currentStepIndex := 0, isPlaying := false, isPaused := false, isCompleted := false } := by
  exact ⟨rfl, by decide⟩

/-- C4 amended: `destroy()` cancels the timer and clears the plan reference and
event subscriptions but leaves the state record exactly as it was; the state is
reset to `{0, false, false, false}` by every `load(plan)` (via `reset`), not by
`destroy()`. -/
theorem c4_destroy_keeps_state_load_resets (c : Controller) (p : LessonPlan) :
    (destroy c).state = c.state ∧
    (destroy c).lessonPlan = none ∧
    (destroy c).eventsCleared = true ∧
    (load c p).state =
      { currentStepIndex := 0, isPlaying := false, isPaused := false, isCompleted := false } := by
  refine ⟨?_, rfl, rfl, rfl⟩
  unfold destroy
  simp

end WebTeacher
